import Mathlib

/-!
# Verification of the financial-management-dashboard transaction pipeline

Shallow embedding of the transaction normalization / reconciliation
pipeline of `app.py` (`prepare_transactions`, `generate_pnl`,
`calculate_mom_growth`), of the batch-script aggregator
`finance_automation.py` (`generate_pnl`), and of the insight formatter
`dynamic_insights.py` (`format_insights_for_dashboard`).

Dataframes are modelled as lists of records; pandas cell values that may
be non-numeric are modelled by `RawAmount` (a number, a non-coercible
string, or NaN/null).  `pd.to_numeric(..., errors='coerce')` becomes
`coerceAmount : RawAmount → Option ℚ` and NaN-safe sums treat `none` as
`0`.  Dates are modelled as already-parsed calendar dates (the pipeline
calls `pd.to_datetime` with the default `errors='raise'`, and none of the
verified properties concern date parsing).  `drop_duplicates(keep='first')`
becomes `dedupBy`, which keeps the first occurrence of every key
(pandas treats NaN keys as equal in `drop_duplicates`, as does `Option`
equality here).  A pandas `pivot_table` groups by its `index`/`columns`
keys with `dropna` semantics: rows whose `AccountType` is NaN are
excluded from the pivot.
-/

namespace FinDash

/-- A calendar date, as produced by `pd.to_datetime` on a valid cell. -/
structure Date where
  year : Nat
  month : Nat
  day : Nat
deriving DecidableEq

/-- A raw spreadsheet `Amount` cell before numeric coercion: a number,
a non-numeric non-coercible string, or a missing value (NaN). -/
inductive RawAmount where
  | num (q : Rat)
  | str (s : String)
  | null
deriving DecidableEq

/-- The `Source_Type` tag attached in `prepare_transactions`
(`app.py` lines 74 and 80). -/
inductive SourceType where
  | Sales
  | Expense
deriving DecidableEq

/-- A raw Sales record (after the `"Total" → "Amount"` rename):
Date, Category, Product, Amount, InvoiceNo, Customer, Region. -/
structure SalesRec where
  date : Date
  category : String
  product : String
  amount : RawAmount
  invoiceNo : String
  customer : String
  region : String
deriving DecidableEq

/-- A raw Expense record (`ExpenseType` is renamed to `Category`):
Date, ExpenseType, Description, Amount. -/
structure ExpenseRec where
  date : Date
  expenseType : String
  description : String
  amount : RawAmount
deriving DecidableEq

/-- A Chart-of-Accounts entry: Category (join key), AccountType
(possibly missing), Account code (raw cell, coerced after the merge). -/
structure CoaRec where
  category : String
  accountType : Option String
  account : RawAmount
deriving DecidableEq

/-- A standardized transaction row, the common column set of
`app.py` lines 76 and 85, before numeric coercion. -/
structure TxRow where
  date : Date
  category : String
  product : Option String
  description : Option String
  amount : RawAmount
  invoiceNo : Option String
  customer : Option String
  region : Option String
  source : SourceType
deriving DecidableEq

/-- A transaction row after `pd.to_numeric(..., errors='coerce')` on
`Amount` and after the `Category_COA` mapping column is added. -/
structure TxRowN where
  date : Date
  category : String
  product : Option String
  description : Option String
  amount : Option Rat
  invoiceNo : Option String
  customer : Option String
  region : Option String
  source : SourceType
  categoryCOA : Option String
deriving DecidableEq

/-- A transaction row after the left merge with the COA
(`app.py` lines 119-121): gains `AccountType` and `Account`. -/
structure MergedRow where
  date : Date
  category : String
  product : Option String
  description : Option String
  amount : Option Rat
  invoiceNo : Option String
  customer : Option String
  region : Option String
  source : SourceType
  categoryCOA : Option String
  accountType : Option String
  account : Option Rat
deriving DecidableEq

/-- A final ledger row, after the time dimensions `Year`, `Month`,
`Period` are added (`app.py` lines 129-131). -/
structure LedgerRow where
  date : Date
  category : String
  product : Option String
  description : Option String
  amount : Option Rat
  invoiceNo : Option String
  customer : Option String
  region : Option String
  source : SourceType
  categoryCOA : Option String
  accountType : Option String
  account : Option Rat
  year : Nat
  month : Nat
  period : String
deriving DecidableEq

/-- Core loop of `drop_duplicates(keep='first')`: keep a row only when
its key value has not been seen before. -/
def dedupByAux {α : Type} {κ : Type} [DecidableEq κ] (key : α → κ)
    (seen : List κ) : List α → List α
  | [] => []
  | x :: xs =>
    if key x ∈ seen then dedupByAux key seen xs
    else x :: dedupByAux key (key x :: seen) xs

/-- `drop_duplicates(subset=key, keep='first')`: keep the first row for
every key value, preserving order.  pandas treats NaN key cells as
equal to each other, as does the `Option`/`RawAmount` equality used in
the keys below. -/
def dedupBy {α : Type} {κ : Type} [DecidableEq κ] (key : α → κ) (l : List α) : List α :=
  dedupByAux key [] l

/-- The hardcoded `category_mapping` dict of `app.py` lines 105-114. -/
def categoryMapping : List (String × String) :=
  [("Jewelry", "Jewelry Sales"),
   ("Salaries", "Salaries"),
   ("Supplies", "Supplies"),
   ("Marketing", "Marketing"),
   ("Delivery", "Delivery"),
   ("Rent", "Rent"),
   ("Utilities", "Utilities"),
   ("Product Cost", "Product Cost")]

/-- `set(category_mapping.keys())`. -/
def mappedKeys : List String := categoryMapping.map Prod.fst

/-- `Series.map(category_mapping)`: dict lookup, missing keys give NaN. -/
def lookupMapping (c : String) : Option String := categoryMapping.lookup c

/-- Standardize one Sales row (`app.py` lines 73-76): rename
`Total → Amount`, tag `Source_Type = "Sales"`, null `Description`. -/
def standardizeSales (s : SalesRec) : TxRow :=
  { date := s.date
    category := s.category
    product := some s.product
    description := none
    amount := s.amount
    invoiceNo := some s.invoiceNo
    customer := some s.customer
    region := some s.region
    source := SourceType.Sales }

/-- Standardize one Expense row (`app.py` lines 79-85): rename
`ExpenseType → Category`, tag `Source_Type = "Expense"`, null
`InvoiceNo`/`Customer`/`Region`/`Product`. -/
def standardizeExpense (e : ExpenseRec) : TxRow :=
  { date := e.date
    category := e.expenseType
    product := none
    description := some e.description
    amount := e.amount
    invoiceNo := none
    customer := none
    region := none
    source := SourceType.Expense }

/-- The deduplicated standardized Sales block followed by the
deduplicated standardized Expense block (`app.py` lines 87-93):
`drop_duplicates` on the two natural keys, then `pd.concat`. -/
def txCombined (sales : List SalesRec) (expenses : List ExpenseRec) : List TxRow :=
  dedupBy (fun r => (r.date, r.invoiceNo, r.product, r.amount))
      (sales.map standardizeSales)
    ++ dedupBy (fun r => (r.date, r.category, r.description, r.amount))
      (expenses.map standardizeExpense)

/-- The sign-normalization step (`app.py` lines 96-98):
`-x["Amount"] if x["Source_Type"] == "Expense" else x["Amount"]`.
Python unary minus on a non-numeric string raises `TypeError`
(the negation runs before `pd.to_numeric`); `-NaN` is `NaN`. -/
def negRow (r : TxRow) : Except String TxRow :=
  if r.source = SourceType.Expense then
    match r.amount with
    | RawAmount.num q => Except.ok { r with amount := RawAmount.num (-q) }
    | RawAmount.null => Except.ok r
    | RawAmount.str _ =>
        Except.error "TypeError: bad operand type for unary -: str"
  else Except.ok r

/-- `pd.to_numeric(..., errors='coerce')` on one cell
(`app.py` line 102): non-coercible values become NaN (`none`). -/
def coerceAmount : RawAmount → Option Rat
  | RawAmount.num q => some q
  | RawAmount.str _ => none
  | RawAmount.null => none

/-- Numeric type casting of the `Amount` column (`app.py` line 102);
`Category_COA` does not exist yet. -/
def coerceRow (r : TxRow) : TxRowN :=
  { date := r.date
    category := r.category
    product := r.product
    description := r.description
    amount := coerceAmount r.amount
    invoiceNo := r.invoiceNo
    customer := r.customer
    region := r.region
    source := r.source
    categoryCOA := none }

/-- Add the `Category_COA` lookup column (`app.py` line 116). -/
def addCategoryCOA (r : TxRowN) : TxRowN :=
  { r with categoryCOA := lookupMapping r.category }

/-- One left-merged output row with COA columns attached. -/
def mergeWith (r : TxRowN) (acct : Option String) (code : Option Rat) : MergedRow :=
  { date := r.date
    category := r.category
    product := r.product
    description := r.description
    amount := r.amount
    invoiceNo := r.invoiceNo
    customer := r.customer
    region := r.region
    source := r.source
    categoryCOA := r.categoryCOA
    accountType := acct
    account := code }

/-- Left merge of one ledger row with the COA table on
`Category_COA = COA.Category` (`app.py` lines 119-121), including the
subsequent numeric coercion of `Account`: a row with no match (or a
NaN key, which matches nothing since COA categories are strings) keeps
`AccountType`/`Account` null; a row with several matches fans out. -/
def mergeCOA (coa : List CoaRec) (r : TxRowN) : List MergedRow :=
  let ms : List CoaRec := match r.categoryCOA with
    | none => []
    | some c => coa.filter (fun e => decide (e.category = c))
  if ms.isEmpty then [mergeWith r none none]
  else ms.map (fun e => mergeWith r e.accountType (coerceAmount e.account))

/-- `"YYYY-MM"` for `Date.dt.to_period('M').astype(str)`. -/
def mkPeriod (d : Date) : String :=
  toString d.year ++ "-" ++ (if d.month < 10 then "0" ++ toString d.month else toString d.month)

/-- Add the time dimensions `Year`, `Month`, `Period`
(`app.py` lines 129-131). -/
def addTime (r : MergedRow) : LedgerRow :=
  { date := r.date
    category := r.category
    product := r.product
    description := r.description
    amount := r.amount
    invoiceNo := r.invoiceNo
    customer := r.customer
    region := r.region
    source := r.source
    categoryCOA := r.categoryCOA
    accountType := r.accountType
    account := r.account
    year := r.date.year
    month := r.date.month
    period := mkPeriod r.date }

/-- Everything `prepare_transactions` does after the negation step:
numeric coercion, `Category_COA` mapping, COA left merge (against the
COA deduplicated on `(Category, Account)`, `app.py` line 90), the
post-merge safety deduplication on
`(Date, InvoiceNo, Amount, Source_Type)` (`app.py` lines 124-126), and
the time dimensions. -/
def buildLedger (coa : List CoaRec) (txNeg : List TxRow) : List LedgerRow :=
  let coaD := dedupBy (fun c => (c.category, c.account)) coa
  let txN := (txNeg.map coerceRow).map addCategoryCOA
  let merged := (txN.map (mergeCOA coaD)).flatten
  let dd := dedupBy (fun r => (r.date, r.invoiceNo, r.amount, r.source)) merged
  dd.map addTime

/-- The combined return value of `prepare_transactions`: the ledger
dataframe plus the two reconciliation sets smuggled on it as the
attributes `_unmapped_categories` and `_unmapped_transaction`
(`app.py` lines 142-143). -/
structure PrepResult where
  ledger : List LedgerRow
  unmappedCategories : List String
  unmappedTransactions : List String
deriving DecidableEq

/-- The reconciliation step of `prepare_transactions`
(`app.py` lines 133-143): distinct categories actually present in the
(merged, deduplicated) ledger versus the keys of `category_mapping`. -/
def mkPrepResult (coa : List CoaRec) (txNeg : List TxRow) : PrepResult :=
  let ledger := buildLedger coa txNeg
  let existing := dedupBy id (ledger.map (fun r => r.category))
  { ledger := ledger
    unmappedCategories := existing.filter (fun c => decide (c ∉ mappedKeys))
    unmappedTransactions := mappedKeys.filter (fun c => decide (c ∉ existing)) }

/-- `prepare_transactions(sales, expenses, coa)` of `app.py`
(lines 70-145).  The only step that can raise on an individual cell is
the expense negation (`app.py` lines 96-98), which runs before the
numeric coercion of `Amount`; every following step is total. -/
def prepare_transactions (sales : List SalesRec) (expenses : List ExpenseRec)
    (coa : List CoaRec) : Except String PrepResult :=
  ((txCombined sales expenses).mapM negRow).map (mkPrepResult coa)

/-! ## The P&L aggregator of `app.py` (`generate_pnl`, lines 147-176) -/

/-- The pivot index `['Year', 'Month', 'Period']`. -/
def pivotKey (r : LedgerRow) : Nat × Nat × String := (r.year, r.month, r.period)

/-- NaN-safe amount: pandas sums skip NaN, so a null amount counts 0. -/
def amt0 (a : Option Rat) : Rat := a.getD 0

/-- One pivot cell: the sum of `Amount` over the rows of the given
`(Year, Month, Period)` group with the given `AccountType`; an empty
group is the `fill_value=0` case and an all-NaN group also sums to 0. -/
def cellSum (l : List LedgerRow) (k : Nat × Nat × String) (a : String) : Rat :=
  ((l.filter (fun r => decide (pivotKey r = k ∧ r.accountType = some a))).map
    (fun r => amt0 r.amount)).sum

/-- One row of the dashboard P&L table, with the derived columns of
`app.py` lines 161-164: the `OPEX` column is overwritten with its
absolute value, then `Expense = abs(OPEX + COGS)` is computed from the
already-absolute `OPEX`, `Net Profit = Revenue - Expense`, and
`Margin (%) = Net Profit / Revenue.replace(0, 1) * 100`. -/
structure PnlRow where
  year : Nat
  month : Nat
  period : String
  revenue : Rat
  opex : Rat
  cogs : Rat
  expense : Rat
  netProfit : Rat
  margin : Rat
deriving DecidableEq

/-- Build the P&L row of one `(Year, Month, Period)` pivot group. -/
def mkPnlRow (valid : List LedgerRow) (k : Nat × Nat × String) : PnlRow :=
  let revenue := cellSum valid k "Revenue"
  let opexRaw := cellSum valid k "OPEX"
  let cogs := cellSum valid k "COGS"
  let opex := |opexRaw|
  let expense := |opex + cogs|
  let netProfit := revenue - expense
  { year := k.1
    month := k.2.1
    period := k.2.2
    revenue := revenue
    opex := opex
    cogs := cogs
    expense := expense
    netProfit := netProfit
    margin := netProfit / (if revenue = 0 then 1 else revenue) * 100 }

/-- The final `sort_values(['Year', 'Month'])` of `app.py` line 166. -/
def pnlLe (a b : PnlRow) : Prop :=
  a.year < b.year ∨ (a.year = b.year ∧ a.month ≤ b.month)

instance : DecidableRel pnlLe := fun a b => by
  unfold pnlLe
  infer_instance

/-- The return value of `generate_pnl`: the P&L dataframe plus the
`_missing_accounts` attribute (`app.py` line 174). -/
structure PnlResult where
  pnl : List PnlRow
  missingAccounts : List String
deriving DecidableEq

/-- `generate_pnl(transactions, coa)` of `app.py` (lines 147-176).
The pivot drops ledger rows whose `AccountType` is NaN (they appear in
no group); the columns `Revenue`, `OPEX`, `COGS` are guaranteed to
exist, with value 0 where no transaction of that type exists
(`fill_value=0` and the lines 157-159 loop); `missing_accounts` is the
distinct non-null COA account types minus the distinct non-null ledger
account types (`app.py` lines 169-171). -/
def generate_pnl (transactions : List LedgerRow) (coa : List CoaRec) : PnlResult :=
  let valid := transactions.filter (fun r => decide (r.accountType ≠ none))
  let keys := dedupBy id (valid.map pivotKey)
  let rows := keys.map (mkPnlRow valid)
  let expected := dedupBy id (coa.filterMap (fun c => c.accountType))
  let existingT := dedupBy id (transactions.filterMap (fun r => r.accountType))
  { pnl := List.insertionSort pnlLe rows
    missingAccounts := expected.filter (fun a => decide (a ∉ existingT)) }

/-! ## The batch-script aggregator of `finance_automation.py`
(`generate_pnl`, lines 96-140).  Its pivot index is `['Year', 'Month']`
and its `Expense` is `abs(pnl['OPEX'] + pnl['COGS'])` computed from the
*raw* (still negative) OPEX column — it never takes `abs` of OPEX
alone.  The model assumes the `Revenue`/`OPEX`/`COGS` columns exist
(guaranteed by the `expected_types` fill loop of lines 119-121 for the
repository's COA). -/

/-- The batch pivot index `['Year', 'Month']`. -/
def faKey (r : LedgerRow) : Nat × Nat := (r.year, r.month)

/-- One batch pivot cell. -/
def cellSumFa (l : List LedgerRow) (k : Nat × Nat) (a : String) : Rat :=
  ((l.filter (fun r => decide (faKey r = k ∧ r.accountType = some a))).map
    (fun r => amt0 r.amount)).sum

/-- `'%b'` month abbreviation used by the batch `Period` column. -/
def monthAbbrev : Nat → String
  | 1 => "Jan" | 2 => "Feb" | 3 => "Mar" | 4 => "Apr"
  | 5 => "May" | 6 => "Jun" | 7 => "Jul" | 8 => "Aug"
  | 9 => "Sep" | 10 => "Oct" | 11 => "Nov" | 12 => "Dec"
  | _ => ""

/-- One row of the batch-script monthly P&L. -/
structure FaPnlRow where
  year : Nat
  month : Nat
  period : String
  revenue : Rat
  opex : Rat
  cogs : Rat
  expense : Rat
  netProfit : Rat
deriving DecidableEq

/-- `generate_pnl(transactions)` of `finance_automation.py`
(lines 96-140): `Expense = abs(OPEX + COGS)` over the raw column
values, `Net Profit = Revenue - Expense`. -/
def generate_pnl_fa (transactions : List LedgerRow) : List FaPnlRow :=
  let valid := transactions.filter (fun r => decide (r.accountType ≠ none))
  let keys := dedupBy id (valid.map faKey)
  keys.map (fun k =>
    let revenue := cellSumFa valid k "Revenue"
    let opex := cellSumFa valid k "OPEX"
    let cogs := cellSumFa valid k "COGS"
    let expense := |opex + cogs|
    { year := k.1
      month := k.2
      period := monthAbbrev k.2 ++ " " ++ toString k.1
      revenue := revenue
      opex := opex
      cogs := cogs
      expense := expense
      netProfit := revenue - expense })

/-! ## The insight formatter of `dynamic_insights.py`
(`format_insights_for_dashboard`, lines 151-191). -/

/-- Python `line.lstrip('*')`. -/
def lstripStar (s : String) : String := String.mk (s.data.dropWhile (fun c => c = '*'))

/-- Python `re.sub(r'\*+', '', s)`: delete every asterisk. -/
def removeStars (s : String) : String := String.mk (s.data.filter (fun c => c ≠ '*'))

/-- Python `s.split(":", 1)[-1]`: everything after the first colon, or
the whole string when no colon occurs. -/
def splitFirstColon : List Char → Option (List Char)
  | [] => none
  | c :: cs => if c = ':' then some cs else splitFirstColon cs

/-- Python `s.split(":", 1)[-1]` on a `String`. -/
def afterColon (s : String) : String :=
  match splitFirstColon s.data with
  | none => s
  | some rest => String.mk rest

/-- The loop state of `format_insights_for_dashboard`:
`(formatted_text, current_headline_clean, brief_clean, action_clean)`. -/
structure FmtState where
  formattedText : String
  headline : String
  brief : String
  action : String

/-- The flush of one finished insight block
(`dynamic_insights.py` lines 170 and 186). -/
def flushBlock (st : FmtState) : String :=
  st.formattedText ++ "### " ++ st.headline ++ "\n\n" ++ st.brief ++ "\n\n"
    ++ st.action ++ "\n\n"

/-- One iteration of the `for line in insights` loop
(`dynamic_insights.py` lines 163-182). -/
def fmtStep (st : FmtState) (line : String) : FmtState :=
  let lineClean := (lstripStar line).trim
  if lineClean.toLower.startsWith "headline insight" then
    let st1 : FmtState :=
      if st.headline ≠ "" then
        { formattedText := flushBlock st, headline := st.headline,
          brief := "", action := "" }
      else st
    { st1 with headline := (removeStars ((afterColon lineClean).trim)).trim }
  else if lineClean.toLower.startsWith "brief explanation" then
    { st with brief := (removeStars ((afterColon lineClean).trim)).trim }
  else if lineClean.toLower.startsWith "actionable recommendation" then
    { st with action := "> 💡 **Recommendation:** "
        ++ (removeStars ((afterColon lineClean).trim)).trim }
  else st

/-- `format_insights_for_dashboard(insights)` of `dynamic_insights.py`
(lines 151-191).  A `None` value and an empty list both fail the
`if not insights` truthiness test and degrade to
`"No insights available."`; otherwise the loop accumulates insight
blocks, the final block is flushed (and `$` replaced by `IDR `) only
when a headline was seen, and a singleton list holding the stripped
text is returned. -/
def format_insights_for_dashboard (insights : Option (List String)) : List String :=
  match insights with
  | none => ["No insights available."]
  | some lines =>
    if lines.isEmpty then ["No insights available."]
    else
      let st := lines.foldl fmtStep
        { formattedText := "", headline := "", brief := "", action := "" }
      let finalText :=
        if st.headline ≠ "" then (flushBlock st).replace "$" "IDR " else st.formattedText
      [finalText.trim]


/-! ## Supporting lemmas -/

theorem mem_of_mem_dedupByAux {α κ : Type} [DecidableEq κ] {key : α → κ} :
    ∀ {l : List α} {seen : List κ} {a : α}, a ∈ dedupByAux key seen l → a ∈ l := by
  intro l
  induction l with
  | nil => intro seen a h; simp [dedupByAux] at h
  | cons x xs ih =>
    intro seen a h
    rw [dedupByAux] at h
    by_cases hseen : key x ∈ seen
    · rw [if_pos hseen] at h
      exact List.mem_cons_of_mem x (ih h)
    · rw [if_neg hseen] at h
      rcases List.mem_cons.mp h with h1 | h2
      · exact h1 ▸ List.mem_cons_self x xs
      · exact List.mem_cons_of_mem x (ih h2)

theorem mem_of_mem_dedupBy {α κ : Type} [DecidableEq κ] {key : α → κ}
    {l : List α} {a : α} (h : a ∈ dedupBy key l) : a ∈ l :=
  mem_of_mem_dedupByAux h

theorem dedupByAux_key_not_seen {α κ : Type} [DecidableEq κ] {key : α → κ} :
    ∀ {l : List α} {seen : List κ} {b : α}, b ∈ dedupByAux key seen l → key b ∉ seen := by
  intro l
  induction l with
  | nil => intro seen b h; simp [dedupByAux] at h
  | cons x xs ih =>
    intro seen b h
    rw [dedupByAux] at h
    by_cases hseen : key x ∈ seen
    · rw [if_pos hseen] at h
      exact ih h
    · rw [if_neg hseen] at h
      rcases List.mem_cons.mp h with h1 | h2
      · exact h1 ▸ hseen
      · intro hb
        exact ih h2 (List.mem_cons_of_mem _ hb)

theorem dedupByAux_pairwise {α κ : Type} [DecidableEq κ] {key : α → κ} :
    ∀ (l : List α) (seen : List κ),
      (dedupByAux key seen l).Pairwise (fun a b => key a ≠ key b) := by
  intro l
  induction l with
  | nil => intro seen; simp [dedupByAux]
  | cons x xs ih =>
    intro seen
    rw [dedupByAux]
    by_cases hseen : key x ∈ seen
    · rw [if_pos hseen]
      exact ih seen
    · rw [if_neg hseen]
      refine List.pairwise_cons.mpr ⟨?_, ih _⟩
      intro y hy hxy
      exact dedupByAux_key_not_seen hy (hxy ▸ List.mem_cons_self _ _)

theorem dedupBy_pairwise {α κ : Type} [DecidableEq κ] {key : α → κ} (l : List α) :
    (dedupBy key l).Pairwise (fun a b => key a ≠ key b) :=
  dedupByAux_pairwise l []

theorem mem_dedupByAux_id {α : Type} [DecidableEq α] :
    ∀ {l : List α} {seen : List α} {a : α},
      a ∈ dedupByAux id seen l ↔ a ∈ l ∧ a ∉ seen := by
  intro l
  induction l with
  | nil => intro seen a; simp [dedupByAux]
  | cons x xs ih =>
    intro seen a
    rw [dedupByAux]
    by_cases hseen : (id x : α) ∈ seen
    · rw [if_pos hseen]
      rw [ih]
      constructor
      · rintro ⟨h1, h2⟩
        exact ⟨List.mem_cons_of_mem _ h1, h2⟩
      · rintro ⟨h1, h2⟩
        rcases List.mem_cons.mp h1 with h3 | h3
        · exact absurd (h3 ▸ hseen) h2
        · exact ⟨h3, h2⟩
    · rw [if_neg hseen]
      constructor
      · intro h
        rcases List.mem_cons.mp h with h1 | h2
        · exact ⟨h1 ▸ List.mem_cons_self _ _, h1 ▸ hseen⟩
        · rcases ih.mp h2 with ⟨h3, h4⟩
          exact ⟨List.mem_cons_of_mem _ h3,
            fun hc => h4 (List.mem_cons_of_mem _ hc)⟩
      · rintro ⟨h1, h2⟩
        rcases List.mem_cons.mp h1 with h3 | h3
        · exact h3 ▸ List.mem_cons_self _ _
        · by_cases hax : a = x
          · exact hax ▸ List.mem_cons_self _ _
          · refine List.mem_cons_of_mem _ (ih.mpr ⟨h3, ?_⟩)
            intro hc
            rcases List.mem_cons.mp hc with h5 | h5
            · exact hax h5
            · exact h2 h5

theorem mem_dedupBy_id {α : Type} [DecidableEq α] {l : List α} {a : α} :
    a ∈ dedupBy id l ↔ a ∈ l := by
  unfold dedupBy
  rw [mem_dedupByAux_id]
  simp

theorem dedupBy_id_nodup {α : Type} [DecidableEq α] (l : List α) :
    (dedupBy id l).Nodup :=
  (dedupBy_pairwise l).imp (fun h => h)

theorem filter_length_le_one_of_pairwise {α κ : Type} [DecidableEq κ] {key : α → κ}
    {l : List α} (hp : l.Pairwise (fun a b => key a ≠ key b)) (v : κ) :
    (l.filter (fun r => decide (key r = v))).length ≤ 1 := by
  induction l with
  | nil => simp
  | cons x xs ih =>
    rcases List.pairwise_cons.mp hp with ⟨hx, hxs⟩
    by_cases hxv : key x = v
    · have hempty : xs.filter (fun r => decide (key r = v)) = [] := by
        rw [List.filter_eq_nil_iff]
        intro y hy hky
        simp only [decide_eq_true_eq] at hky
        exact hx y hy (hxv.trans hky.symm)
      simp [List.filter_cons, hxv, hempty]
    · simpa [List.filter_cons, hxv] using ih hxs

theorem length_filter_le_of_imp {α : Type} {p q : α → Bool} :
    ∀ {l : List α}, (∀ a ∈ l, p a = true → q a = true) →
      (l.filter p).length ≤ (l.filter q).length := by
  intro l
  induction l with
  | nil => intro _; simp
  | cons x xs ih =>
    intro h
    have hxs := ih (fun a ha => h a (List.mem_cons_of_mem _ ha))
    by_cases hp : p x = true
    · have hq := h x (List.mem_cons_self _ _) hp
      simpa [List.filter_cons, hp, hq] using hxs
    · by_cases hq : q x = true
      · simp only [List.filter_cons, hp, hq]
        simp only [Bool.false_eq_true, if_false, if_true, List.length_cons]
        exact Nat.le_succ_of_le hxs
      · simpa [List.filter_cons, hp, hq] using hxs

theorem mapM_ok_mem {α β ε : Type} {f : α → Except ε β} :
    ∀ {l : List α} {l2 : List β}, l.mapM f = Except.ok l2 →
      ∀ b ∈ l2, ∃ a ∈ l, f a = Except.ok b := by
  intro l
  induction l with
  | nil =>
    intro l2 h b hb
    simp only [List.mapM_nil, pure, Except.pure] at h
    cases h
    simp at hb
  | cons x xs ih =>
    intro l2 h b hb
    rw [List.mapM_cons] at h
    cases hfx : f x with
    | error e =>
      rw [hfx] at h
      simp only [bind, Except.bind] at h
      cases h
    | ok y =>
      rw [hfx] at h
      simp only [bind, Except.bind] at h
      cases hxs : xs.mapM f with
      | error e =>
        rw [hxs] at h
        simp only [Functor.map, Except.map] at h
        cases h
      | ok ys =>
        rw [hxs] at h
        simp only [Functor.map, Except.map] at h
        cases h
        rcases List.mem_cons.mp hb with h1 | h2
        · exact ⟨x, List.mem_cons_self _ _, h1 ▸ hfx⟩
        · rcases ih hxs b h2 with ⟨a, ha, hfa⟩
          exact ⟨a, List.mem_cons_of_mem _ ha, hfa⟩

theorem mapM_ok_of_forall {α β ε : Type} {f : α → Except ε β} {g : α → β} :
    ∀ {l : List α}, (∀ a ∈ l, f a = Except.ok (g a)) → l.mapM f = Except.ok (l.map g) := by
  intro l
  induction l with
  | nil => intro _; simp only [List.mapM_nil, List.map_nil, pure, Except.pure]
  | cons x xs ih =>
    intro h
    rw [List.mapM_cons, h x (List.mem_cons_self _ _),
      ih (fun a ha => h a (List.mem_cons_of_mem _ ha))]
    simp only [bind, Except.bind, Functor.map, Except.map, List.map_cons, pure, Except.pure]

theorem except_map_ok {α β ε : Type} {e : Except ε α} {f : α → β} {b : β}
    (h : e.map f = Except.ok b) : ∃ a, e = Except.ok a ∧ b = f a := by
  cases e with
  | error x => simp [Except.map] at h
  | ok a =>
    refine ⟨a, rfl, ?_⟩
    simp only [Except.map] at h
    cases h
    rfl

theorem mem_mergeCOA {coa : List CoaRec} {r : TxRowN} {m : MergedRow}
    (h : m ∈ mergeCOA coa r) :
    ∃ a c, m = mergeWith r a c := by
  simp only [mergeCOA] at h
  split at h
  · rcases List.mem_singleton.mp h with rfl
    exact ⟨none, none, rfl⟩
  · rcases List.mem_map.mp h with ⟨e, _, rfl⟩
    exact ⟨e.accountType, coerceAmount e.account, rfl⟩

theorem mem_buildLedger {coa : List CoaRec} {txNeg : List TxRow} {row : LedgerRow}
    (h : row ∈ buildLedger coa txNeg) :
    ∃ t ∈ txNeg, row.source = t.source ∧ row.invoiceNo = t.invoiceNo ∧
      row.amount = coerceAmount t.amount ∧ row.category = t.category ∧
      row.date = t.date := by
  unfold buildLedger at h
  rcases List.mem_map.mp h with ⟨m, hm, rfl⟩
  have hm2 := mem_of_mem_dedupBy hm
  rcases List.mem_flatten.mp hm2 with ⟨ms, hms, hmms⟩
  rcases List.mem_map.mp hms with ⟨n, hn, rfl⟩
  rcases List.mem_map.mp hn with ⟨n0, hn0, rfl⟩
  rcases List.mem_map.mp hn0 with ⟨t, ht, rfl⟩
  rcases mem_mergeCOA hmms with ⟨a, c, rfl⟩
  exact ⟨t, ht, rfl, rfl, rfl, rfl, rfl⟩

theorem buildLedger_pairwise (coa : List CoaRec) (txNeg : List TxRow) :
    (buildLedger coa txNeg).Pairwise
      (fun r1 r2 => (r1.date, r1.invoiceNo, r1.amount, r1.source)
        ≠ (r2.date, r2.invoiceNo, r2.amount, r2.source)) := by
  unfold buildLedger
  rw [List.pairwise_map]
  exact dedupBy_pairwise _

theorem txCombined_cases {sales : List SalesRec} {expenses : List ExpenseRec} {t : TxRow}
    (h : t ∈ txCombined sales expenses) :
    (∃ s ∈ sales, t = standardizeSales s) ∨ (∃ e ∈ expenses, t = standardizeExpense e) := by
  unfold txCombined at h
  rcases List.mem_append.mp h with h1 | h2
  · rcases List.mem_map.mp (mem_of_mem_dedupBy h1) with ⟨s, hs, rfl⟩
    exact Or.inl ⟨s, hs, rfl⟩
  · rcases List.mem_map.mp (mem_of_mem_dedupBy h2) with ⟨e, he, rfl⟩
    exact Or.inr ⟨e, he, rfl⟩

theorem negRow_ok_fields {t t2 : TxRow} (h : negRow t = Except.ok t2) :
    t2.source = t.source ∧ t2.invoiceNo = t.invoiceNo ∧ t2.category = t.category ∧
      t2.date = t.date := by
  unfold negRow at h
  split at h
  · split at h
    · cases h; exact ⟨rfl, rfl, rfl, rfl⟩
    · cases h; exact ⟨rfl, rfl, rfl, rfl⟩
    · cases h
  · cases h; exact ⟨rfl, rfl, rfl, rfl⟩

theorem sum_map_ite_zero {κ : Type} [DecidableEq κ] {a : κ} {c : Rat} :
    ∀ {ks : List κ}, a ∉ ks → ((ks.map (fun k => if a = k then c else 0)).sum = 0) := by
  intro ks
  induction ks with
  | nil => intro _; simp
  | cons k ks ih =>
    intro h
    have hak : a ≠ k := fun hh => h (hh ▸ List.mem_cons_self _ _)
    have : a ∉ ks := fun hh => h (List.mem_cons_of_mem _ hh)
    simp [hak, ih this]

theorem sum_map_ite {κ : Type} [DecidableEq κ] {a : κ} {c : Rat} :
    ∀ {ks : List κ}, ks.Nodup → a ∈ ks →
      ((ks.map (fun k => if a = k then c else 0)).sum = c) := by
  intro ks
  induction ks with
  | nil => intro _ h; simp at h
  | cons k ks ih =>
    intro hnd hmem
    rcases List.nodup_cons.mp hnd with ⟨hk, hnd2⟩
    by_cases hak : a = k
    · subst hak
      simp [sum_map_ite_zero hk]
    · rcases List.mem_cons.mp hmem with h1 | h2
      · exact absurd h1 hak
      · simp [hak, ih hnd2 h2]

theorem sum_fiber {α κ : Type} [DecidableEq κ] (key : α → κ) (f : α → Rat) :
    ∀ (l : List α) (keys : List κ), keys.Nodup → (∀ r ∈ l, key r ∈ keys) →
      ((keys.map (fun k => ((l.filter (fun r => decide (key r = k))).map f).sum)).sum
        = (l.map f).sum) := by
  intro l
  induction l with
  | nil => intro keys _ _; simp
  | cons x xs ih =>
    intro keys hnd hm
    have hx : key x ∈ keys := hm x (List.mem_cons_self _ _)
    have hxs : ∀ r ∈ xs, key r ∈ keys := fun r hr => hm r (List.mem_cons_of_mem _ hr)
    have hsplit : ∀ k : κ,
        (((x :: xs).filter (fun r => decide (key r = k))).map f).sum
          = (if key x = k then f x else 0)
            + ((xs.filter (fun r => decide (key r = k))).map f).sum := by
      intro k
      by_cases hk : key x = k
      · simp [List.filter_cons, hk]
      · simp [List.filter_cons, hk]
    calc (keys.map (fun k => (((x :: xs).filter (fun r => decide (key r = k))).map f).sum)).sum
        = (keys.map (fun k => (if key x = k then f x else 0)
            + ((xs.filter (fun r => decide (key r = k))).map f).sum)).sum := by
          exact congrArg List.sum (List.map_congr_left (fun k _ => hsplit k))
      _ = (keys.map (fun k => if key x = k then f x else 0)).sum
            + (keys.map (fun k => ((xs.filter (fun r => decide (key r = k))).map f).sum)).sum := by
          rw [← List.sum_map_add]
      _ = f x + (xs.map f).sum := by rw [sum_map_ite hnd hx, ih keys hnd hxs]
      _ = ((x :: xs).map f).sum := by simp

theorem sum_nonpos_rat : ∀ {l : List Rat}, (∀ x ∈ l, x ≤ 0) → l.sum ≤ 0 := by
  intro l
  induction l with
  | nil => intro _; simp
  | cons x xs ih =>
    intro h
    rw [List.sum_cons]
    have h1 := h x (List.mem_cons_self _ _)
    have h2 := ih (fun y hy => h y (List.mem_cons_of_mem _ hy))
    linarith

theorem sum_map_neg_rat {α : Type} (f : α → Rat) : ∀ (l : List α),
    (l.map (fun x => -(f x))).sum = -((l.map f).sum) := by
  intro l
  induction l with
  | nil => simp
  | cons x xs ih =>
    simp [ih]
    ring


/-- The value the negation step produces when it does not raise:
expense amounts are negated (`-NaN = NaN`), sales amounts untouched. -/
def negAmountP : RawAmount → RawAmount
  | RawAmount.num q => RawAmount.num (-q)
  | RawAmount.str s => RawAmount.str s
  | RawAmount.null => RawAmount.null

/-- Total version of `negRow`, equal to it on rows where the Python
negation does not raise. -/
def negRowP (r : TxRow) : TxRow :=
  if r.source = SourceType.Expense then { r with amount := negAmountP r.amount } else r

theorem negRow_eq_ok (r : TxRow)
    (h : r.source = SourceType.Expense → ∀ s, r.amount ≠ RawAmount.str s) :
    negRow r = Except.ok (negRowP r) := by
  unfold negRow negRowP
  by_cases hs : r.source = SourceType.Expense
  · rw [if_pos hs, if_pos hs]
    cases ha : r.amount with
    | num q => rfl
    | str s => exact absurd ha (h hs s)
    | null =>
      simp only [negAmountP]
      cases r
      simp_all
  · rw [if_neg hs, if_neg hs]

theorem negRowP_source (r : TxRow) : (negRowP r).source = r.source := by
  unfold negRowP
  split <;> rfl

theorem negRowP_invoice (r : TxRow) : (negRowP r).invoiceNo = r.invoiceNo := by
  unfold negRowP
  split <;> rfl

theorem negRowP_amount_sales (r : TxRow) (h : r.source = SourceType.Sales) :
    (negRowP r).amount = r.amount := by
  unfold negRowP
  rw [if_neg]
  rw [h]
  intro hc
  cases hc

theorem negRowP_amount_expense (r : TxRow) (h : r.source = SourceType.Expense) :
    (negRowP r).amount = negAmountP r.amount := by
  unfold negRowP
  rw [if_pos h]

/-- Every Expense row of the combined standardized table has a null
`InvoiceNo` (`app.py` line 81), and every Sales row a non-null one. -/
theorem txCombined_expense_invoice {sales : List SalesRec} {expenses : List ExpenseRec}
    {t : TxRow} (h : t ∈ txCombined sales expenses) (hsrc : t.source = SourceType.Expense) :
    t.invoiceNo = none := by
  rcases txCombined_cases h with ⟨s, _, rfl⟩ | ⟨e, _, rfl⟩
  · cases hsrc
  · rfl

/-- Every Expense row of the final ledger has a null `InvoiceNo`. -/
theorem ledger_expense_invoice {sales : List SalesRec} {expenses : List ExpenseRec}
    {coa : List CoaRec} {out : PrepResult}
    (h : prepare_transactions sales expenses coa = Except.ok out)
    {row : LedgerRow} (hrow : row ∈ out.ledger) (hsrc : row.source = SourceType.Expense) :
    row.invoiceNo = none := by
  rcases except_map_ok h with ⟨txNeg, hneg, rfl⟩
  rcases mem_buildLedger hrow with ⟨t2, ht2, hsrc2, hinv2, _, _, _⟩
  rcases mapM_ok_mem hneg t2 ht2 with ⟨t0, ht0, hok⟩
  rcases negRow_ok_fields hok with ⟨hs0, hi0, _, _⟩
  rw [hinv2, hi0]
  exact txCombined_expense_invoice ht0 (by rw [← hs0, ← hsrc2, hsrc])


theorem generate_pnl_perm (L : List LedgerRow) (coa : List CoaRec) :
    List.Perm (generate_pnl L coa).pnl
      ((dedupBy id ((L.filter (fun r => decide (r.accountType ≠ none))).map pivotKey)).map
        (mkPnlRow (L.filter (fun r => decide (r.accountType ≠ none))))) := by
  simp only [generate_pnl]
  exact List.perm_insertionSort pnlLe _

theorem mem_pnl {L : List LedgerRow} {coa : List CoaRec} {p : PnlRow} :
    p ∈ (generate_pnl L coa).pnl ↔
      ∃ k ∈ dedupBy id ((L.filter (fun r => decide (r.accountType ≠ none))).map pivotKey),
        p = mkPnlRow (L.filter (fun r => decide (r.accountType ≠ none))) k := by
  rw [(generate_pnl_perm L coa).mem_iff]
  constructor
  · intro h
    rcases List.mem_map.mp h with ⟨k, hk, rfl⟩
    exact ⟨k, hk, rfl⟩
  · rintro ⟨k, hk, rfl⟩
    exact List.mem_map_of_mem _ hk

theorem cellSum_eq_filter (l : List LedgerRow) (k : Nat × Nat × String) (a : String) :
    cellSum l k a
      = (((l.filter (fun r => decide (r.accountType = some a))).filter
          (fun r => decide (pivotKey r = k))).map (fun r => amt0 r.amount)).sum := by
  unfold cellSum
  rw [List.filter_filter]
  congr 1
  congr 1
  apply List.filter_congr
  intro r _
  exact Bool.decide_and _ _

theorem filter_acct_of_valid (L : List LedgerRow) (a : String) :
    (L.filter (fun r => decide (r.accountType ≠ none))).filter
        (fun r => decide (r.accountType = some a))
      = L.filter (fun r => decide (r.accountType = some a)) := by
  rw [List.filter_filter]
  apply List.filter_congr
  intro r _
  by_cases h : r.accountType = some a
  · simp [h]
  · simp [h]

theorem cellSum_total (L : List LedgerRow) (a : String) :
    (((dedupBy id ((L.filter (fun r => decide (r.accountType ≠ none))).map pivotKey)).map
        (fun k => cellSum (L.filter (fun r => decide (r.accountType ≠ none))) k a)).sum)
      = ((L.filter (fun r => decide (r.accountType = some a))).map
          (fun r => amt0 r.amount)).sum := by
  calc (((dedupBy id ((L.filter (fun r => decide (r.accountType ≠ none))).map pivotKey)).map
        (fun k => cellSum (L.filter (fun r => decide (r.accountType ≠ none))) k a)).sum)
      = (((dedupBy id ((L.filter (fun r => decide (r.accountType ≠ none))).map pivotKey)).map
          (fun k => ((((L.filter (fun r => decide (r.accountType ≠ none))).filter
              (fun r => decide (r.accountType = some a))).filter
              (fun r => decide (pivotKey r = k))).map (fun r => amt0 r.amount)).sum)).sum) := by
        exact congrArg List.sum (List.map_congr_left (fun k _ => cellSum_eq_filter _ k a))
    _ = (((L.filter (fun r => decide (r.accountType ≠ none))).filter
          (fun r => decide (r.accountType = some a))).map (fun r => amt0 r.amount)).sum := by
        refine sum_fiber pivotKey (fun r => amt0 r.amount) _ _ (dedupBy_id_nodup _) ?_
        intro r hr
        exact mem_dedupBy_id.mpr (List.mem_map_of_mem _ (List.mem_of_mem_filter hr))
    _ = ((L.filter (fun r => decide (r.accountType = some a))).map
          (fun r => amt0 r.amount)).sum := by
        rw [filter_acct_of_valid]

theorem cellSum_nonpos {l : List LedgerRow} {a : String}
    (h : ∀ r ∈ l, r.accountType = some a → amt0 r.amount ≤ 0) (k : Nat × Nat × String) :
    cellSum l k a ≤ 0 := by
  apply sum_nonpos_rat
  intro x hx
  rcases List.mem_map.mp hx with ⟨r, hr, rfl⟩
  rcases List.mem_filter.mp hr with ⟨hrl, hpred⟩
  simp only [decide_eq_true_eq] at hpred
  exact h r hrl hpred.2


/-! ## Concrete example data used by counterexamples and witnesses -/

def dJan : Date := ⟨2024, 1, 15⟩

def dJan2 : Date := ⟨2024, 1, 20⟩

def exSales : List SalesRec :=
  [⟨dJan, "Jewelry", "Ring", RawAmount.num 1000, "INV1", "Andi", "West"⟩]

def exCoa : List CoaRec :=
  [⟨"Jewelry Sales", some "Revenue", RawAmount.num 100⟩,
   ⟨"Rent", some "OPEX", RawAmount.num 200⟩,
   ⟨"Product Cost", some "COGS", RawAmount.num 300⟩]

def exExpenses : List ExpenseRec :=
  [⟨dJan2, "Rent", "monthly rent", RawAmount.num 100⟩,
   ⟨dJan2, "Product Cost", "materials", RawAmount.num 50⟩]

/-- A ledger row whose `AccountType` is null (an unmapped category). -/
def exNullRow : LedgerRow :=
  ⟨dJan, "Gold", none, none, some 10, none, none, none, SourceType.Sales,
    none, none, none, 2024, 1, "2024-01"⟩

/-- A ledger row mapped to Revenue. -/
def exRevRow : LedgerRow :=
  ⟨dJan, "Jewelry", some "Ring", none, some 1000, some "INV1", some "Andi",
    some "West", SourceType.Sales, some "Jewelry Sales", some "Revenue",
    some 100, 2024, 1, "2024-01"⟩

/-- An OPEX ledger row with the usual negative amount (January). -/
def exOpexNeg : LedgerRow :=
  ⟨dJan, "Rent", none, none, some (-100), none, none, none, SourceType.Expense,
    some "Rent", some "OPEX", some 200, 2024, 1, "2024-01"⟩

/-- An OPEX ledger row with a positive amount in another period. -/
def exOpexPos : LedgerRow :=
  ⟨⟨2024, 2, 5⟩, "Rent", none, none, some 50, none, none, none, SourceType.Sales,
    some "Rent", some "OPEX", some 200, 2024, 2, "2024-02"⟩

/-! ## Claim theorems -/

/-- Claim C8: for the empty ledger the P&L aggregator returns an empty
P&L table together with the COA-derived missing-accounts list (every
distinct non-null COA account type), and does not raise. -/
theorem claim8_empty_ledger (coa : List CoaRec) :
    (generate_pnl [] coa).pnl = []
      ∧ (generate_pnl [] coa).missingAccounts
          = dedupBy id (coa.filterMap (fun c => c.accountType)) := by
  constructor
  · rfl
  · show (dedupBy id (coa.filterMap (fun c => c.accountType))).filter _
        = dedupBy id (coa.filterMap (fun c => c.accountType))
    apply List.filter_eq_self.mpr
    intro a _
    simp [dedupBy, dedupByAux]

/-- Claim C10: the dashboard insight formatter degrades to
`"No insights available."` on a `None` or empty insight list, and for
every input list it returns (a singleton formatted text) without
failing. -/
theorem claim10_formatter_degrades :
    format_insights_for_dashboard none = ["No insights available."]
      ∧ format_insights_for_dashboard (some []) = ["No insights available."]
      ∧ ∀ insights, (format_insights_for_dashboard insights).length = 1 := by
  refine ⟨rfl, rfl, ?_⟩
  intro insights
  cases insights with
  | none => rfl
  | some lines =>
    simp only [format_insights_for_dashboard]
    split
    · rfl
    · rfl

/-- Claim C9: the two reconciliation findings of the builder are
disjoint: `unmapped_categories` (ledger categories minus mapping keys)
never meets `unmapped_transactions` (mapping keys minus ledger
categories). -/
theorem claim9_reconciliation_disjoint (sales : List SalesRec)
    (expenses : List ExpenseRec) (coa : List CoaRec) (out : PrepResult)
    (h : prepare_transactions sales expenses coa = Except.ok out) :
    ∀ c ∈ out.unmappedCategories, c ∉ out.unmappedTransactions := by
  rcases except_map_ok h with ⟨txNeg, _, rfl⟩
  intro c hc hct
  have h1 := (List.mem_filter.mp hc).2
  have h2 := List.mem_of_mem_filter hct
  simp only [decide_eq_true_eq] at h1
  exact h1 h2

def exSales9 : List SalesRec :=
  [⟨dJan, "Gold", "Necklace", RawAmount.num 10, "INV9", "Budi", "East"⟩]

def exOut9 : PrepResult :=
  (prepare_transactions exSales9 [] exCoa).toOption.getD ⟨[], [], []⟩

theorem claim9_witness : "Gold" ∉ exOut9.unmappedTransactions := by
  refine claim9_reconciliation_disjoint exSales9 [] exCoa exOut9 ?_ "Gold" ?_
  · with_unfolding_all rfl
  · rw [show exOut9.unmappedCategories = ["Gold"] from by with_unfolding_all rfl]
    exact List.mem_singleton.mpr rfl

/-- Claim C6: in every P&L row with `Revenue = 0` the margin equals
`Net Profit × 100` — the divisor is replaced by 1, no division error or
undefined value occurs. -/
theorem claim6_margin_zero_revenue (L : List LedgerRow) (coa : List CoaRec) :
    ∀ p ∈ (generate_pnl L coa).pnl, p.revenue = 0 → p.margin = p.netProfit * 100 := by
  intro p hp hrev
  rcases mem_pnl.mp hp with ⟨k, hk, rfl⟩
  have hm : (mkPnlRow (L.filter (fun r => decide (r.accountType ≠ none))) k).margin
      = (mkPnlRow (L.filter (fun r => decide (r.accountType ≠ none))) k).netProfit
        / (if cellSum (L.filter (fun r => decide (r.accountType ≠ none))) k "Revenue" = 0
            then 1
            else cellSum (L.filter (fun r => decide (r.accountType ≠ none))) k "Revenue")
        * 100 := rfl
  have hrev2 : cellSum (L.filter (fun r => decide (r.accountType ≠ none))) k "Revenue" = 0 :=
    hrev
  rw [hm, if_pos hrev2, div_one]

def exPnlRowW : PnlRow := ⟨2024, 1, "2024-01", 0, 100, 0, 100, -100, -10000⟩

theorem claim6_witness : exPnlRowW.margin = exPnlRowW.netProfit * 100 := by
  refine claim6_margin_zero_revenue [exOpexNeg] exCoa exPnlRowW ?_ rfl
  rw [show (generate_pnl [exOpexNeg] exCoa).pnl = [exPnlRowW] from by
    set_option maxRecDepth 10000 in with_unfolding_all rfl]
  exact List.mem_singleton.mpr rfl


/-- One pivot cell is 0 when no ledger row at all carries the account
type. -/
theorem cellSum_zero_of_absent {L : List LedgerRow} {a : String}
    (h : ∀ r ∈ L, r.accountType ≠ some a) (k : Nat × Nat × String) :
    cellSum (L.filter (fun r => decide (r.accountType ≠ none))) k a = 0 := by
  unfold cellSum
  have hnil : (L.filter (fun r => decide (r.accountType ≠ none))).filter
      (fun r => decide (pivotKey r = k ∧ r.accountType = some a)) = [] := by
    rw [List.filter_eq_nil_iff]
    intro r hr hpred
    simp only [decide_eq_true_eq] at hpred
    exact h r (List.mem_of_mem_filter hr) hpred.2
  rw [hnil]
  rfl

/-- Claim C2 counterexample: a ledger whose only row has a null
`AccountType` yields an empty P&L table, so the P&L period set does
not include that ledger row's period: the pivot drops NaN
`AccountType` rows. -/
theorem claim2_period_counterexample :
    (generate_pnl [exNullRow] exCoa).pnl = []
      ∧ exNullRow.period = "2024-01"
      ∧ exNullRow.accountType = none
      ∧ pivotKey exNullRow ∉ (generate_pnl [exNullRow] exCoa).pnl.map
          (fun p => (p.year, p.month, p.period)) := by
  refine ⟨rfl, rfl, rfl, ?_⟩
  intro h
  rw [show (generate_pnl [exNullRow] exCoa).pnl = [] from rfl] at h
  simp at h

/-- Claim C2 (amended): the set of `(Year, Month, Period)` rows of the
P&L table equals the set of distinct pivot keys of the ledger rows
whose `AccountType` is non-null (null-`AccountType`-only periods are
dropped by the pivot), and each of the columns `Revenue`, `OPEX`,
`COGS` is 0 in every P&L row when no transaction of that type exists. -/
theorem claim2_periods_and_zero_columns (L : List LedgerRow) (coa : List CoaRec) :
    (∀ k : Nat × Nat × String,
        k ∈ (generate_pnl L coa).pnl.map (fun p => (p.year, p.month, p.period))
          ↔ k ∈ (L.filter (fun r => decide (r.accountType ≠ none))).map pivotKey)
      ∧ ((∀ r ∈ L, r.accountType ≠ some "Revenue") →
          ∀ p ∈ (generate_pnl L coa).pnl, p.revenue = 0)
      ∧ ((∀ r ∈ L, r.accountType ≠ some "OPEX") →
          ∀ p ∈ (generate_pnl L coa).pnl, p.opex = 0)
      ∧ ((∀ r ∈ L, r.accountType ≠ some "COGS") →
          ∀ p ∈ (generate_pnl L coa).pnl, p.cogs = 0) := by
  refine ⟨?_, ?_, ?_, ?_⟩
  · intro k
    rw [((generate_pnl_perm L coa).map (fun p => (p.year, p.month, p.period))).mem_iff,
      List.map_map]
    have hid : ∀ x ∈ dedupBy id ((L.filter (fun r => decide (r.accountType ≠ none))).map
        pivotKey), ((fun p => (p.year, p.month, p.period))
          ∘ mkPnlRow (L.filter (fun r => decide (r.accountType ≠ none)))) x = x :=
      fun x _ => rfl
    rw [List.map_congr_left hid, List.map_id']
    exact mem_dedupBy_id
  · intro habs p hp
    rcases mem_pnl.mp hp with ⟨k, _, rfl⟩
    exact cellSum_zero_of_absent habs k
  · intro habs p hp
    rcases mem_pnl.mp hp with ⟨k, _, rfl⟩
    show |cellSum (L.filter (fun r => decide (r.accountType ≠ none))) k "OPEX"| = 0
    rw [cellSum_zero_of_absent habs k, abs_zero]
  · intro habs p hp
    rcases mem_pnl.mp hp with ⟨k, _, rfl⟩
    exact cellSum_zero_of_absent habs k

theorem claim2_witness :
    (2024, 1, "2024-01") ∈ (generate_pnl [exRevRow] exCoa).pnl.map
      (fun p => (p.year, p.month, p.period)) := by
  refine ((claim2_periods_and_zero_columns [exRevRow] exCoa).1 (2024, 1, "2024-01")).mpr ?_
  rw [show ([exRevRow].filter (fun r => decide (r.accountType ≠ none))).map pivotKey
      = [(2024, 1, "2024-01")] from rfl]
  exact List.mem_singleton.mpr rfl

/-- Claim C5 counterexample: when per-period OPEX totals have mixed
signs (one period's OPEX total is −100, another period's is +50), the
sum of the P&L OPEX column is 150 while the absolute value of the
ledger's OPEX total is 50, so the claimed OPEX identity fails. -/
theorem claim5_opex_counterexample :
    ((generate_pnl [exOpexNeg, exOpexPos] exCoa).pnl.map (fun p => p.opex)).sum = 150
      ∧ |(([exOpexNeg, exOpexPos].filter
          (fun r => decide (r.accountType = some "OPEX"))).map
            (fun r => amt0 r.amount)).sum| = 50
      ∧ (150 : Rat) ≠ 50 := by
  refine ⟨?_, ?_, by norm_num⟩
  · set_option maxRecDepth 10000 in with_unfolding_all rfl
  · set_option maxRecDepth 10000 in with_unfolding_all rfl

/-- Generic column-sum identity: the sum of one P&L column whose value
is a raw pivot cell equals the ledger-wide sum of that account type. -/
theorem pnl_col_sum (L : List LedgerRow) (coa : List CoaRec) (a : String)
    (g : PnlRow → Rat)
    (hg : ∀ k, g (mkPnlRow (L.filter (fun r => decide (r.accountType ≠ none))) k)
        = cellSum (L.filter (fun r => decide (r.accountType ≠ none))) k a) :
    ((generate_pnl L coa).pnl.map g).sum
      = ((L.filter (fun r => decide (r.accountType = some a))).map
          (fun r => amt0 r.amount)).sum := by
  have hg2 : ∀ k ∈ dedupBy id ((L.filter (fun r => decide (r.accountType ≠ none))).map
      pivotKey), (g ∘ mkPnlRow (L.filter (fun r => decide (r.accountType ≠ none)))) k
        = cellSum (L.filter (fun r => decide (r.accountType ≠ none))) k a :=
    fun k _ => hg k
  rw [((generate_pnl_perm L coa).map g).sum_eq, List.map_map,
    List.map_congr_left hg2]
  exact cellSum_total L a

/-- Claim C5 (amended): the P&L Revenue column sums to the ledger's
Revenue total; the same identity holds for COGS; and provided every
per-row OPEX amount is nonpositive (the sign convention the ledger
builder establishes), the P&L OPEX magnitudes sum to the absolute
value of the ledger's OPEX total. -/
theorem claim5_column_sums (L : List LedgerRow) (coa : List CoaRec)
    (hOp : ∀ r ∈ L, r.accountType = some "OPEX" → amt0 r.amount ≤ 0) :
    (((generate_pnl L coa).pnl.map (fun p => p.revenue)).sum
        = ((L.filter (fun r => decide (r.accountType = some "Revenue"))).map
            (fun r => amt0 r.amount)).sum)
      ∧ (((generate_pnl L coa).pnl.map (fun p => p.cogs)).sum
          = ((L.filter (fun r => decide (r.accountType = some "COGS"))).map
              (fun r => amt0 r.amount)).sum)
      ∧ (((generate_pnl L coa).pnl.map (fun p => p.opex)).sum
          = |((L.filter (fun r => decide (r.accountType = some "OPEX"))).map
              (fun r => amt0 r.amount)).sum|) := by
  have hOpValid : ∀ r ∈ L.filter (fun r => decide (r.accountType ≠ none)),
      r.accountType = some "OPEX" → amt0 r.amount ≤ 0 :=
    fun r hr => hOp r (List.mem_of_mem_filter hr)
  refine ⟨pnl_col_sum L coa "Revenue" (fun p => p.revenue) (fun k => rfl),
    pnl_col_sum L coa "COGS" (fun p => p.cogs) (fun k => rfl), ?_⟩
  rw [((generate_pnl_perm L coa).map (fun p => p.opex)).sum_eq, List.map_map]
  have habs : ∀ k ∈ dedupBy id ((L.filter (fun r => decide (r.accountType ≠ none))).map
      pivotKey), ((fun p => p.opex)
        ∘ mkPnlRow (L.filter (fun r => decide (r.accountType ≠ none)))) k
      = -(cellSum (L.filter (fun r => decide (r.accountType ≠ none))) k "OPEX") := by
    intro k _
    show |cellSum (L.filter (fun r => decide (r.accountType ≠ none))) k "OPEX"|
      = -(cellSum (L.filter (fun r => decide (r.accountType ≠ none))) k "OPEX")
    exact abs_of_nonpos (cellSum_nonpos hOpValid k)
  rw [List.map_congr_left habs,
    sum_map_neg_rat (fun k => cellSum (L.filter
      (fun r => decide (r.accountType ≠ none))) k "OPEX") _,
    cellSum_total L "OPEX"]
  have htot : ((L.filter (fun r => decide (r.accountType = some "OPEX"))).map
      (fun r => amt0 r.amount)).sum ≤ 0 := by
    apply sum_nonpos_rat
    intro x hx
    rcases List.mem_map.mp hx with ⟨r, hr, rfl⟩
    rcases List.mem_filter.mp hr with ⟨hrl, hpred⟩
    simp only [decide_eq_true_eq] at hpred
    exact hOp r hrl hpred
  rw [abs_of_nonpos htot]

theorem claim5_witness :
    ((generate_pnl [exOpexNeg] exCoa).pnl.map (fun p => p.opex)).sum
      = |(([exOpexNeg].filter (fun r => decide (r.accountType = some "OPEX"))).map
          (fun r => amt0 r.amount)).sum| := by
  refine (claim5_column_sums [exOpexNeg] exCoa ?_).2.2
  intro r hr hacct
  rcases List.mem_singleton.mp hr with rfl
  norm_num [exOpexNeg, amt0]


/-- Two distinct raw expense records sharing a `(Date, Amount)` pair
(different categories and descriptions). -/
def exExpensesC3 : List ExpenseRec :=
  [⟨dJan2, "Rent", "office", RawAmount.num 300⟩,
   ⟨dJan2, "Utilities", "electricity", RawAmount.num 300⟩]

/-- Claim C3: the post-join deduplication key
`(Date, InvoiceNo, Amount, Source_Type)` together with the null
`InvoiceNo` of every Expense row leaves at most one Expense ledger row
per `(Date, Amount)` pair; concretely, two distinct raw expense
records with equal Date and Amount collapse to the first one. -/
theorem claim3_expense_dedup_collapse :
    (∀ (sales : List SalesRec) (expenses : List ExpenseRec) (coa : List CoaRec)
        (out : PrepResult), prepare_transactions sales expenses coa = Except.ok out →
      ∀ (d : Date) (a : Option Rat),
        (out.ledger.filter (fun r =>
          decide (r.source = SourceType.Expense ∧ r.date = d ∧ r.amount = a))).length ≤ 1)
      ∧ (prepare_transactions [] exExpensesC3 exCoa).map
          (fun o => o.ledger.map (fun r => r.category)) = Except.ok ["Rent"]
      ∧ exExpensesC3.length = 2 := by
  refine ⟨?_, ?_, rfl⟩
  · intro sales expenses coa out h d a
    rcases except_map_ok h with ⟨txNeg, _, rfl⟩
    have hpw := buildLedger_pairwise coa txNeg
    have himp : ∀ r ∈ (mkPrepResult coa txNeg).ledger,
        decide (r.source = SourceType.Expense ∧ r.date = d ∧ r.amount = a) = true →
        decide ((r.date, r.invoiceNo, r.amount, r.source)
          = ((d, (none : Option String), a, SourceType.Expense)
              : Date × Option String × Option Rat × SourceType)) = true := by
      intro r hr hp
      simp only [decide_eq_true_eq] at hp ⊢
      rcases hp with ⟨hsrc, hd, ha⟩
      rw [hd, ledger_expense_invoice h hr hsrc, ha, hsrc]
    calc ((mkPrepResult coa txNeg).ledger.filter (fun r =>
          decide (r.source = SourceType.Expense ∧ r.date = d ∧ r.amount = a))).length
        ≤ ((mkPrepResult coa txNeg).ledger.filter (fun r =>
            decide ((r.date, r.invoiceNo, r.amount, r.source)
              = ((d, (none : Option String), a, SourceType.Expense)
                  : Date × Option String × Option Rat × SourceType)))).length :=
          length_filter_le_of_imp himp
      _ ≤ 1 := filter_length_le_one_of_pairwise hpw _
  · set_option maxRecDepth 10000 in with_unfolding_all rfl

def exOut3 : PrepResult :=
  (prepare_transactions [] exExpensesC3 exCoa).toOption.getD ⟨[], [], []⟩

theorem claim3_witness :
    (exOut3.ledger.filter (fun r =>
      decide (r.source = SourceType.Expense ∧ r.date = dJan2
        ∧ r.amount = some (-300)))).length ≤ 1 :=
  claim3_expense_dedup_collapse.1 [] exExpensesC3 exCoa exOut3
    (by set_option maxRecDepth 10000 in with_unfolding_all rfl) dJan2 (some (-300))

/-- Claim C4: when every raw Sales and Expense amount is a non-negative
number, the build succeeds and every ledger row's amount sign matches
its `Source_Type`: Expense rows end nonpositive (negated exactly once),
Sales rows stay nonnegative. -/
theorem claim4_amount_sign (sales : List SalesRec) (expenses : List ExpenseRec)
    (coa : List CoaRec)
    (hs : ∀ s ∈ sales, ∃ q, s.amount = RawAmount.num q ∧ 0 ≤ q)
    (he : ∀ e ∈ expenses, ∃ q, e.amount = RawAmount.num q ∧ 0 ≤ q) :
    ∃ out, prepare_transactions sales expenses coa = Except.ok out ∧
      ∀ row ∈ out.ledger,
        (row.source = SourceType.Expense → ∃ q, row.amount = some q ∧ q ≤ 0)
          ∧ (row.source = SourceType.Sales → ∃ q, row.amount = some q ∧ 0 ≤ q) := by
  have hall : ∀ t ∈ txCombined sales expenses, negRow t = Except.ok (negRowP t) := by
    intro t ht
    apply negRow_eq_ok
    intro hsrc s hstr
    rcases txCombined_cases ht with ⟨s0, hs0, rfl⟩ | ⟨e0, he0, rfl⟩
    · cases hsrc
    · rcases he e0 he0 with ⟨q, hq, _⟩
      rw [show (standardizeExpense e0).amount = e0.amount from rfl, hq] at hstr
      cases hstr
  refine ⟨mkPrepResult coa ((txCombined sales expenses).map negRowP), ?_, ?_⟩
  · unfold prepare_transactions
    rw [mapM_ok_of_forall hall]
    rfl
  · intro row hrow
    have hrow2 : row ∈ buildLedger coa ((txCombined sales expenses).map negRowP) := hrow
    rcases mem_buildLedger hrow2 with ⟨t2, ht2, hsrc2, _, hamt2, _, _⟩
    rcases List.mem_map.mp ht2 with ⟨t, ht, rfl⟩
    constructor
    · intro hexp
      have hsrct : t.source = SourceType.Expense := by
        rw [← negRowP_source t, ← hsrc2]
        exact hexp
      rcases txCombined_cases ht with ⟨s0, hs0, rfl⟩ | ⟨e0, he0, rfl⟩
      · cases hsrct
      · rcases he e0 he0 with ⟨q, hq, hq0⟩
        refine ⟨-q, ?_, by linarith⟩
        rw [hamt2, negRowP_amount_expense _ hsrct,
          show (standardizeExpense e0).amount = e0.amount from rfl, hq]
        rfl
    · intro hsal
      have hsrct : t.source = SourceType.Sales := by
        rw [← negRowP_source t, ← hsrc2]
        exact hsal
      rcases txCombined_cases ht with ⟨s0, hs0, rfl⟩ | ⟨e0, he0, rfl⟩
      · rcases hs s0 hs0 with ⟨q, hq, hq0⟩
        refine ⟨q, ?_, hq0⟩
        rw [hamt2, negRowP_amount_sales _ hsrct,
          show (standardizeSales s0).amount = s0.amount from rfl, hq]
        rfl
      · cases hsrct

theorem claim4_witness :
    ∃ out, prepare_transactions exSales exExpenses exCoa = Except.ok out ∧
      ∀ row ∈ out.ledger,
        (row.source = SourceType.Expense → ∃ q, row.amount = some q ∧ q ≤ 0)
          ∧ (row.source = SourceType.Sales → ∃ q, row.amount = some q ∧ 0 ≤ q) := by
  refine claim4_amount_sign exSales exExpenses exCoa ?_ ?_
  · intro s hs
    rcases List.mem_singleton.mp hs with rfl
    exact ⟨1000, rfl, by norm_num⟩
  · intro e he
    rcases List.mem_cons.mp he with rfl | h2
    · exact ⟨100, rfl, by norm_num⟩
    · rcases List.mem_singleton.mp h2 with rfl
      exact ⟨50, rfl, by norm_num⟩


/-- An expense record whose `Amount` cell is a non-coercible string. -/
def exExpBad : List ExpenseRec :=
  [⟨dJan2, "Rent", "rent", RawAmount.str "three hundred"⟩]

/-- Claim C7 counterexample: a non-coercible Expense `Amount` makes the
builder raise — the expense negation (`-x["Amount"]`) runs before
`pd.to_numeric(..., errors='coerce')` and Python's unary minus on a
string raises `TypeError`, so the pipeline aborts instead of turning
the cell into a null. -/
theorem claim7_expense_string_raises :
    prepare_transactions exSales exExpBad exCoa
      = Except.error "TypeError: bad operand type for unary -: str" := by
  with_unfolding_all rfl

/-- Claim C7 (amended): when the non-coercible Amount cells are
confined to Sales rows (every Expense amount is a number or missing),
the builder does not raise; each ledger row's amount is the image of
its raw cell under `coerceAmount` (which maps every non-coercible
string to null), and aggregation treats a null amount as 0. -/
theorem claim7_sales_coercion_null (sales : List SalesRec)
    (expenses : List ExpenseRec) (coa : List CoaRec)
    (he : ∀ e ∈ expenses, ∀ s, e.amount ≠ RawAmount.str s) :
    (∃ out, prepare_transactions sales expenses coa = Except.ok out ∧
        ∀ row ∈ out.ledger, ∃ t ∈ txCombined sales expenses,
          row.amount = coerceAmount (negRowP t).amount)
      ∧ (∀ s, coerceAmount (RawAmount.str s) = none)
      ∧ amt0 none = 0 := by
  refine ⟨?_, fun s => rfl, rfl⟩
  have hall : ∀ t ∈ txCombined sales expenses, negRow t = Except.ok (negRowP t) := by
    intro t ht
    apply negRow_eq_ok
    intro hsrc s
    rcases txCombined_cases ht with ⟨s0, _, rfl⟩ | ⟨e0, he0, rfl⟩
    · cases hsrc
    · exact he e0 he0 s
  refine ⟨mkPrepResult coa ((txCombined sales expenses).map negRowP), ?_, ?_⟩
  · unfold prepare_transactions
    rw [mapM_ok_of_forall hall]
    rfl
  · intro row hrow
    have hrow2 : row ∈ buildLedger coa ((txCombined sales expenses).map negRowP) := hrow
    rcases mem_buildLedger hrow2 with ⟨t2, ht2, _, _, hamt2, _, _⟩
    rcases List.mem_map.mp ht2 with ⟨t, ht, rfl⟩
    exact ⟨t, ht, hamt2⟩

/-- A sales record whose `Amount` cell is a non-coercible string. -/
def exSalesBad : List SalesRec :=
  [⟨dJan, "Jewelry", "Ring", RawAmount.str "a lot", "INV1", "Andi", "West"⟩]

theorem claim7_witness :
    (∃ out, prepare_transactions exSalesBad exExpenses exCoa = Except.ok out ∧
        ∀ row ∈ out.ledger, ∃ t ∈ txCombined exSalesBad exExpenses,
          row.amount = coerceAmount (negRowP t).amount)
      ∧ (∀ s, coerceAmount (RawAmount.str s) = none)
      ∧ amt0 none = 0 := by
  refine claim7_sales_coercion_null exSalesBad exExpenses exCoa ?_
  intro e hemem s
  rcases List.mem_cons.mp hemem with rfl | h2
  · intro hc
    cases hc
  · rcases List.mem_singleton.mp h2 with rfl
    intro hc
    cases hc

/-- Claim C1 (the code deviates): at a ledger whose January OPEX total
is −100 and COGS total is −50 (Revenue 1000), the dashboard aggregator
of `app.py` — which first overwrites OPEX with `abs(OPEX)` and only
then computes `Expense = abs(OPEX + COGS)` — reports `Expense = 50`
and `Net Profit = 950`, while `|OPEX| + |COGS| = 150`; the batch
aggregator of `finance_automation.py`, which computes
`abs(OPEX + COGS)` from the raw negative columns, reports the claimed
`Expense = 150` and `Net Profit = 850`. -/
theorem claim1_app_expense_formula_bug :
    ((prepare_transactions exSales exExpenses exCoa).map (fun out =>
        ((generate_pnl out.ledger exCoa).pnl.map
            (fun p => (p.revenue, p.opex, p.cogs, p.expense, p.netProfit)),
          (generate_pnl_fa out.ledger).map
            (fun p => (p.revenue, p.opex, p.cogs, p.expense, p.netProfit)))))
        = Except.ok ([((1000 : Rat), 100, -50, 50, 950)],
            [((1000 : Rat), -100, -50, 150, 850)])
      ∧ (150 : Rat) = |(-100 : Rat)| + |(-50 : Rat)|
      ∧ (50 : Rat) ≠ |(-100 : Rat)| + |(-50 : Rat)|
      ∧ (950 : Rat) ≠ 1000 - (|(-100 : Rat)| + |(-50 : Rat)|) := by
  refine ⟨?_, by norm_num, by norm_num, by norm_num⟩
  set_option maxRecDepth 10000 in with_unfolding_all rfl

end FinDash
